import Mathlib

/-
Verification of the korat_os kernel sources: the boot-info physical frame
allocator, the page-mapping path, the interrupt dispatch table and its
handlers, the GDT/TSS double-fault stack, the kernel init sequence, and the
VGA text writer.  Rust sources are shallowly embedded as executable Lean
definitions; machine integers are modelled as `Nat` (no arithmetic in the
embedded code can overflow `u64` on the inputs considered).  The file lists
all definitions first, then all theorems.
-/

namespace KoratOs

namespace Memory

/-- Region kinds of the bootloader's `MemoryRegionType`
(`bootloader::bootinfo`). -/
inductive RegionType
| Usable
| InUse
| Reserved
| AcpiReclaimable
| AcpiNvs
| BadMemory
| Kernel
| KernelStack
| PageTable
| Bootloader
| FrameZero
| Empty
| BootInfo
| Package
deriving DecidableEq, Repr

/-- One `MemoryRegion` of the bootloader memory map: a physical address range
`[start_addr, end_addr)` plus its `region_type`.  In the bootloader the range
is stored as frame numbers, so both addresses are multiples of 4096 by
construction; the theorems take that as a hypothesis. -/
structure MemoryRegion where
  start_addr : Nat
  end_addr : Nat
  region_type : RegionType
deriving DecidableEq, Repr

/-- Rust `(s..e).step_by(4096)`: the addresses `s, s + 4096, s + 2*4096, ...`
strictly below `e`. -/
def stepBy4096 (s e : Nat) : List Nat :=
  (List.range ((e - s + 4095) / 4096)).map (fun k => s + 4096 * k)

/-- `PhysFrame::containing_address`: aligns an address down to its 4096-byte
frame start. -/
def containing_address (addr : Nat) : Nat := 4096 * (addr / 4096)

/-- `BootInfoFrameAllocator::usable_frames`: filter the map down to `Usable`
regions, turn each region into its address range, step through every range by
4096 and wrap each address into the frame containing it. -/
def usable_frames (memory_map : List MemoryRegion) : List Nat :=
  let usable_regions := memory_map.filter
    (fun r => r.region_type == RegionType.Usable)
  let addr_ranges := usable_regions.map (fun r => (r.start_addr, r.end_addr))
  let frame_addresses := addr_ranges.flatMap (fun p => stepBy4096 p.1 p.2)
  frame_addresses.map (fun addr => containing_address addr)

/-- `BootInfoFrameAllocator`: the boot memory map plus the monotonically
advancing cursor `next`. -/
structure BootInfoFrameAllocator where
  memory_map : List MemoryRegion
  next : Nat
deriving DecidableEq, Repr

/-- `BootInfoFrameAllocator::init`: fresh allocator with `next = 0`. -/
def BootInfoFrameAllocator.init (memory_map : List MemoryRegion) :
    BootInfoFrameAllocator :=
  { memory_map := memory_map, next := 0 }

/-- `BootInfoFrameAllocator::allocate_frame`: return the `next`-th usable
frame (if any) and advance the cursor unconditionally. -/
def BootInfoFrameAllocator.allocate_frame (a : BootInfoFrameAllocator) :
    Option Nat × BootInfoFrameAllocator :=
  ((usable_frames a.memory_map)[a.next]?,
   { a with next := a.next + 1 })

/-- The results of `n` successive `allocate_frame` calls starting from
allocator state `a`. -/
def allocRun (a : BootInfoFrameAllocator) : Nat → List (Option Nat)
  | 0 => []
  | n + 1 =>
    (a.allocate_frame).1 :: allocRun (a.allocate_frame).2 n

/-- A small boot memory map used to instantiate the universally quantified
theorems: two `Usable` regions separated by a `Reserved` one. -/
def demoMap : List MemoryRegion :=
  [{ start_addr := 0x1000, end_addr := 0x3000, region_type := RegionType.Usable },
   { start_addr := 0x3000, end_addr := 0x5000, region_type := RegionType.Reserved },
   { start_addr := 0x5000, end_addr := 0x6000, region_type := RegionType.Usable }]

/-- `EmptyFrameAllocator::allocate_frame`: always returns `None`. -/
def EmptyFrameAllocator.allocate_frame (u : Unit) : Option Nat × Unit :=
  (none, u)

/-- `PageTableFlags`: only the two flags used by the sources
(`PRESENT | WRITABLE`). -/
structure PageTableFlags where
  present : Bool
  writable : Bool
deriving DecidableEq, Repr

/-- A 4 KiB virtual page identified by its four page-table indices
(level 4 down to level 1). -/
structure Page where
  p4_index : Nat
  p3_index : Nat
  p2_index : Nat
  p1_index : Nat
deriving DecidableEq, Repr

/-- The page-table hierarchy reachable from the active level-4 table:
which intermediate tables exist at each level (identified by the index path
leading to them), and the leaf mappings (index path to frame and flags). -/
structure PageTableState where
  p3_tables : List Nat
  p2_tables : List (Nat × Nat)
  p1_tables : List (Nat × Nat × Nat)
  mappings : List ((Nat × Nat × Nat × Nat) × (Nat × PageTableFlags))
deriving DecidableEq, Repr

/-- Typed failures of the page-mapping operation: allocation exhausted while
obtaining an intermediate page-table frame, or the target page is already
mapped. -/
inductive MapToError
| FrameAllocationFailed
| PageAlreadyMapped
deriving DecidableEq, Repr

/-- `MapperFlush`: the pending translation-cache invalidation returned by a
successful mapping operation, tied to the mapped page. -/
structure MapperFlush where
  page : Page
deriving DecidableEq, Repr

/-- `MapperFlush::flush`: performs the invalidation of the translation-cache
entry for the recorded page, which the model reports as that page. -/
def MapperFlush.flush (f : MapperFlush) : Page := f.page

/-- The index path of a page, used as the key of its leaf mapping. -/
def pageKey (p : Page) : Nat × Nat × Nat × Nat :=
  (p.p4_index, p.p3_index, p.p2_index, p.p1_index)

/-- The leaf mapping currently installed for a page, if any. -/
def lookupMapping (st : PageTableState) (p : Page) :
    Option (Nat × PageTableFlags) :=
  st.mappings.lookup (pageKey p)

/-- Whether all three intermediate tables on the path of `p` exist. -/
def hasIntermediateTables (st : PageTableState) (p : Page) : Bool :=
  st.p3_tables.contains p.p4_index
    && st.p2_tables.contains (p.p4_index, p.p3_index)
    && st.p1_tables.contains (p.p4_index, p.p3_index, p.p2_index)

/-- Modelled from the spec: walking one level of the hierarchy, creating the
next-level table if it is absent.  `present` is whether the entry already
points at a table, `updated` the state with the freshly created table
installed: if the entry is present the state is unchanged, otherwise a frame
for the new table is requested from the allocator and its absence is the
allocation-exhausted outcome (`none`). -/
def ensureTable {A : Type} (allocate : A → Option Nat × A) (present : Bool)
    (updated st : PageTableState) (a : A) : Option (PageTableState × A) :=
  if present then some (st, a)
  else
    match allocate a with
    | (some _, a') => some (updated, a')
    | (none, _) => none

/-- Modelled from the spec: `Mapper::map_to` of the x86_64 crate, which the
repository calls but does not contain.  Per spec 4.4 it creates a new
virtual-to-physical mapping, allocating any needed intermediate page-table
frames from the supplied allocator; it fails with a mapping-conflict error if
the page is already mapped, or an allocation-exhausted error if an
intermediate frame cannot be obtained; on success it returns the pending
translation-cache invalidation for that page. -/
def map_to {A : Type} (page : Page) (frame : Nat) (flags : PageTableFlags)
    (allocate : A → Option Nat × A) (a : A) (st : PageTableState) :
    Except MapToError (MapperFlush × PageTableState × A) :=
  -- level 4 entry: create the level-3 table if absent
  match ensureTable allocate (st.p3_tables.contains page.p4_index)
      { st with p3_tables := page.p4_index :: st.p3_tables } st a with
  | none => Except.error MapToError.FrameAllocationFailed
  | some (st1, a1) =>
    -- level 3 entry: create the level-2 table if absent
    match ensureTable allocate (st1.p2_tables.contains (page.p4_index, page.p3_index))
        { st1 with p2_tables := (page.p4_index, page.p3_index) :: st1.p2_tables }
        st1 a1 with
    | none => Except.error MapToError.FrameAllocationFailed
    | some (st2, a2) =>
      -- level 2 entry: create the level-1 table if absent
      match ensureTable allocate
          (st2.p1_tables.contains (page.p4_index, page.p3_index, page.p2_index))
          { st2 with p1_tables :=
              (page.p4_index, page.p3_index, page.p2_index) :: st2.p1_tables }
          st2 a2 with
      | none => Except.error MapToError.FrameAllocationFailed
      | some (st3, a3) =>
        -- level 1 entry: conflict if already mapped, else install the mapping
        if (st3.mappings.lookup (pageKey page)).isSome then
          Except.error MapToError.PageAlreadyMapped
        else
          Except.ok
            ({ page := page },
             { st3 with mappings := (pageKey page, (frame, flags)) :: st3.mappings },
             a3)

/-- Outcome of `create_example_mapping`: either the `expect` on the mapping
result panicked, or the mapping succeeded and the translation-cache entry of
the recorded page was invalidated by `flush`. -/
inductive MapOutcome
| panicked (msg : String)
| done (invalidated : Page) (st : PageTableState)
deriving DecidableEq, Repr

/-- `create_example_mapping`: maps the given page to the frame containing
physical address `0xb8000` with `PRESENT | WRITABLE`, panics via `expect` on
any mapping error and flushes the returned invalidation on success. -/
def create_example_mapping {A : Type} (page : Page)
    (allocate : A → Option Nat × A) (a : A) (st : PageTableState) :
    MapOutcome :=
  let frame := containing_address 0xb8000
  let flags : PageTableFlags := { present := true, writable := true }
  match map_to page frame flags allocate a st with
  | Except.ok (fl, st', _) => MapOutcome.done fl.flush st'
  | Except.error _ => MapOutcome.panicked "map_to failed"

/-- Concrete page used to instantiate the mapping theorems. -/
def demoPage : Page := { p4_index := 0, p3_index := 0, p2_index := 0, p1_index := 0 }

/-- A page-table state in which `demoPage` is already mapped and all its
intermediate tables exist. -/
def demoMappedState : PageTableState :=
  { p3_tables := [0],
    p2_tables := [(0, 0)],
    p1_tables := [(0, 0, 0)],
    mappings := [((0, 0, 0, 0), (0xb8000, { present := true, writable := true }))] }

/-- The empty page-table state: only the level-4 table exists. -/
def emptyState : PageTableState :=
  { p3_tables := [], p2_tables := [], p1_tables := [], mappings := [] }

/-- A list-backed frame allocator handing out its elements in order; used to
instantiate the success case of the mapping theorems. -/
def listAllocate (l : List Nat) : Option Nat × List Nat :=
  (l.head?, l.tail)

end Memory

/-- Exit behavior of an embedded handler body: return to the interrupted
context, halt the CPU forever, or panic. -/
inductive HandlerExit
| returned
| halted
| panicked
deriving DecidableEq, Repr

/-- Events logged by exception handlers through `println`. -/
inductive LogEvent
| msg (s : String)
| accessedAddress (addr : Nat)
| errorCode (code : Nat)
| stackFrame (frame : Nat)
deriving DecidableEq, Repr

/-- Handler functions installable in the dispatch table. -/
inductive HandlerId
| breakpoint
| pageFault
| doubleFault
| timer
| keyboard
deriving DecidableEq, Repr

/-- One interrupt-descriptor-table entry: the installed handler and the
optional interrupt-stack-table index selecting an alternate stack. -/
structure IdtEntry where
  handler : HandlerId
  stack_index : Option Nat
deriving DecidableEq, Repr

/-- A vector-indexed dispatch table; vectors with no installed handler map to
`none`. -/
def IdtMap : Type := Nat → Option IdtEntry

/-- Installing a handler entry at a vector of the dispatch table. -/
def idtSet (t : IdtMap) (vector : Nat) (e : IdtEntry) : IdtMap :=
  fun v => if v = vector then some e else t v

/-- `InterruptDescriptorTable::new`: no handler installed anywhere. -/
def idtEmpty : IdtMap := fun _ => none

namespace Gdt

/-- `DOUBLE_FAULT_IST_INDEX`: the interrupt-stack-table slot reserved for the
double-fault stack. -/
def DOUBLE_FAULT_IST_INDEX : Nat := 0

/-- `STACK_SIZE` of the static double-fault `STACK` byte array: `4096 * 5`. -/
def STACK_SIZE : Nat := 4096 * 5

/-- `TaskStateSegment`: its seven-entry interrupt stack table (an unset entry
is the zero address). -/
structure TaskStateSegment where
  interrupt_stack_table : List Nat
deriving DecidableEq, Repr

/-- `TaskStateSegment::new`: all interrupt-stack-table entries unset. -/
def TaskStateSegment.new : TaskStateSegment :=
  { interrupt_stack_table := List.replicate 7 0 }

/-- The `TSS` static, parametrized by the address of the statically reserved
`STACK` byte array: entry `DOUBLE_FAULT_IST_INDEX` is set to the end address
of that fixed-size region (stacks grow downward). -/
def TSS (stack_start : Nat) : TaskStateSegment :=
  { interrupt_stack_table :=
      TaskStateSegment.new.interrupt_stack_table.set DOUBLE_FAULT_IST_INDEX
        (stack_start + STACK_SIZE) }

end Gdt

namespace Interrupts

/-- `PIC_1_OFFSET` of dev/korat_os: first vector of the primary controller. -/
def PIC_1_OFFSET : Nat := 32

/-- `PIC_2_OFFSET`: first vector of the secondary controller. -/
def PIC_2_OFFSET : Nat := PIC_1_OFFSET + 8

/-- `InterruptIndex` of the dev/korat_os crate. -/
inductive InterruptIndex
| Timer
deriving DecidableEq, Repr

/-- `InterruptIndex::as_u8`: the enum discriminant (`Timer = PIC_1_OFFSET`). -/
def InterruptIndex.as_u8 : InterruptIndex → Nat
  | InterruptIndex.Timer => PIC_1_OFFSET

/-- `InterruptIndex::as_usize`. -/
def InterruptIndex.as_usize (i : InterruptIndex) : Nat := i.as_u8

/-- The `IDT` static of the dev/korat_os crate: breakpoint (vector 3), double
fault (vector 8, on the double-fault IST stack) and the timer IRQ. -/
def IDT : IdtMap :=
  idtSet
    (idtSet
      (idtSet idtEmpty 3 { handler := HandlerId.breakpoint, stack_index := none })
      8 { handler := HandlerId.doubleFault,
          stack_index := some Gdt.DOUBLE_FAULT_IST_INDEX })
    InterruptIndex.Timer.as_usize { handler := HandlerId.timer, stack_index := none }

/-- `breakpoint_handler`: logs the interrupted execution frame and returns. -/
def breakpoint_handler (stack_frame : Nat) : List LogEvent × HandlerExit :=
  ([LogEvent.msg "EXCEPTION: BREAKPOINT", LogEvent.stackFrame stack_frame],
   HandlerExit.returned)

/-- `double_fault_handler` (return type `!`): panics with the error code and
the saved execution frame. -/
def double_fault_handler (stack_frame : Nat) (error_code : Nat) :
    List LogEvent × HandlerExit :=
  ([LogEvent.msg "EXCEPTION: DOUBLE FAULT", LogEvent.errorCode error_code,
    LogEvent.stackFrame stack_frame],
   HandlerExit.panicked)

end Interrupts

namespace KernelInterrupts

/-- `PIC_1_OFFSET` of dev/kernel/korat_os. -/
def PIC_1_OFFSET : Nat := 32

/-- `PIC_2_OFFSET` of dev/kernel/korat_os. -/
def PIC_2_OFFSET : Nat := PIC_1_OFFSET + 8

/-- `InterruptIndex` of the dev/kernel/korat_os crate. -/
inductive InterruptIndex
| Timer
| Keyboard
deriving DecidableEq, Repr

/-- `InterruptIndex::as_u8`: the enum discriminants
(`Timer = PIC_1_OFFSET`, `Keyboard = PIC_1_OFFSET + 1`). -/
def InterruptIndex.as_u8 : InterruptIndex → Nat
  | InterruptIndex.Timer => PIC_1_OFFSET
  | InterruptIndex.Keyboard => PIC_1_OFFSET + 1

/-- `InterruptIndex::as_usize`. -/
def InterruptIndex.as_usize (i : InterruptIndex) : Nat := i.as_u8

/-- The `IDT` static of the dev/kernel/korat_os crate: breakpoint (vector 3),
page fault (vector 14), double fault (vector 8, on the double-fault IST
stack), timer IRQ and keyboard IRQ. -/
def IDT : IdtMap :=
  idtSet
    (idtSet
      (idtSet
        (idtSet
          (idtSet idtEmpty 3 { handler := HandlerId.breakpoint, stack_index := none })
          14 { handler := HandlerId.pageFault, stack_index := none })
        8 { handler := HandlerId.doubleFault,
            stack_index := some Gdt.DOUBLE_FAULT_IST_INDEX })
      InterruptIndex.Timer.as_usize { handler := HandlerId.timer, stack_index := none })
    InterruptIndex.Keyboard.as_usize { handler := HandlerId.keyboard, stack_index := none }

/-- CPU state read by the page-fault handler: the fault-address register
`CR2`. -/
structure CpuState where
  cr2 : Nat
deriving DecidableEq, Repr

/-- `hlt_loop`: halts the CPU in an endless `hlt` loop; never returns. -/
def hlt_loop : HandlerExit := HandlerExit.halted

/-- `page_fault_handler`: prints the fault kind, the faulting address read
from `CR2`, the error-code bitmask and the saved execution frame, then enters
`hlt_loop`. -/
def page_fault_handler (cpu : CpuState) (stack_frame : Nat) (error_code : Nat) :
    List LogEvent × HandlerExit :=
  ([LogEvent.msg "EXCEPTION: PAGE FAULT",
    LogEvent.accessedAddress cpu.cr2,
    LogEvent.errorCode error_code,
    LogEvent.stackFrame stack_frame],
   hlt_loop)

/-- `pc_keyboard::DecodedKey`: a printable character or a raw key. -/
inductive DecodedKey
| unicode (character : Nat)
| rawKey (key : Nat)
deriving DecidableEq, Repr

/-- Port and print actions performed by the IRQ handlers; `eoi v` models
`notify_end_of_interrupt(v)`. -/
inductive IoAction
| print (s : String)
| printKey (key : DecodedKey)
| portRead (port : Nat) (value : Nat)
| eoi (vector : Nat)
deriving DecidableEq, Repr

/-- `timer_interrupt_handler`: prints a dot, then acknowledges
end-of-interrupt for the timer vector. -/
def timer_interrupt_handler : List IoAction :=
  [IoAction.print ".", IoAction.eoi InterruptIndex.Timer.as_u8]

/-- Interface of the external `pc_keyboard` decoder: `add_byte` consumes a
scancode and may complete a key event (or fail), `process_keyevent` may turn
an event into a decoded key; both thread the decoder state, which persists
across interrupts in the `KEYBOARD` static. -/
structure KeyboardDecoder (S : Type) where
  add_byte : S → Nat → Except Unit (Option Nat) × S
  process_keyevent : S → Nat → Option DecodedKey × S

/-- `keyboard_interrupt_handler`: reads one scancode from port `0x60`, feeds
the decoder, prints the decoded key if a full event completed, and finally
acknowledges end-of-interrupt for the keyboard vector. -/
def keyboard_interrupt_handler {S : Type} (dec : KeyboardDecoder S) (st : S)
    (scancode : Nat) : List IoAction × S :=
  match dec.add_byte st scancode with
  | (Except.ok (some key_event), st1) =>
    match dec.process_keyevent st1 key_event with
    | (some key, st2) =>
      ([IoAction.portRead 0x60 scancode, IoAction.printKey key,
        IoAction.eoi InterruptIndex.Keyboard.as_u8], st2)
    | (none, st2) =>
      ([IoAction.portRead 0x60 scancode,
        IoAction.eoi InterruptIndex.Keyboard.as_u8], st2)
  | (Except.ok none, st1) =>
    ([IoAction.portRead 0x60 scancode,
      IoAction.eoi InterruptIndex.Keyboard.as_u8], st1)
  | (Except.error _, st1) =>
    ([IoAction.portRead 0x60 scancode,
      IoAction.eoi InterruptIndex.Keyboard.as_u8], st1)

/-- The number of end-of-interrupt acknowledgments in an action trace. -/
def eoiCount (tr : List IoAction) : Nat :=
  (tr.filter fun a =>
    match a with
    | IoAction.eoi _ => true
    | _ => false).length

end KernelInterrupts

/-- The side-effecting steps of `korat_os::init` in dev/korat_os `lib.rs`:
`gdt::init_gdt()`, `interrupts::init_idt()`, the controller-pair setup on
`PICS`, and the CPU interrupt-enable instruction. -/
inductive InitStep
| loadGdt
| loadIdt
| initPics
| enableInts
deriving DecidableEq, Repr

/-- `init`: the four steps in program order. -/
def init : List InitStep :=
  [InitStep.loadGdt, InitStep.loadIdt, InitStep.initPics, InitStep.enableInts]

/-- Steps of the global print path: interrupt masking, writer locking and the
formatted write to the output sink. -/
inductive SyncAction
| disableInts
| lockWriter
| writeOutput
| unlockWriter
| restoreInts
deriving DecidableEq, Repr

/-- Scans a trace from a context where interrupts are enabled and the writer
lock is free; `true` iff at some point the lock is held while interrupts are
enabled. -/
def lockHeldIntsEnabled : Bool → Bool → List SyncAction → Bool
  | _, _, [] => false
  | ints, locked, a :: rest =>
    let ints' :=
      match a with
      | SyncAction.disableInts => false
      | SyncAction.restoreInts => true
      | _ => ints
    let locked' :=
      match a with
      | SyncAction.lockWriter => true
      | SyncAction.unlockWriter => false
      | _ => locked
    (locked' && ints') || lockHeldIntsEnabled ints' locked' rest

namespace VgaBuffer

/-- `_print` of dev/korat_os: takes the `WRITER` lock, performs the formatted
write, releases the lock; the interrupt flag is not touched. -/
def print_path : List SyncAction :=
  [SyncAction.lockWriter, SyncAction.writeOutput, SyncAction.unlockWriter]

/-- `BUFFER_HEIGHT`: rows of the VGA text grid. -/
def BUFFER_HEIGHT : Nat := 25

/-- `BUFFER_WIDTH`: columns of the VGA text grid. -/
def BUFFER_WIDTH : Nat := 80

/-- `ScreenChar`: an ASCII byte plus its color attribute byte. -/
structure ScreenChar where
  ascii_character : Nat
  color_code : Nat
deriving DecidableEq, Repr

/-- The VGA text buffer, as the contents of cell (row, column).  The writer
only ever touches rows below `BUFFER_HEIGHT` and columns below
`BUFFER_WIDTH`; the access lists of the operations record every touched
index so the claim of in-bounds access can be stated. -/
def Buffer : Type := Nat → Nat → ScreenChar

/-- A single volatile cell write `buffer.chars[row][col].write c`. -/
def bufWrite (buf : Buffer) (row col : Nat) (c : ScreenChar) : Buffer :=
  fun r k => if r = row ∧ k = col then c else buf r k

/-- The `Writer`: current column in the last row, active color code, and the
VGA buffer it writes to. -/
structure Writer where
  column_position : Nat
  color_code : Nat
  buffer : Buffer

/-- `Writer::clear_row`: overwrites every cell of `row` with a blank of the
current color.  Also returns the list of (row, column) buffer accesses the
loop performs. -/
def clear_row (w : Writer) (row : Nat) : Writer × List (Nat × Nat) :=
  let blank : ScreenChar := { ascii_character := 0x20, color_code := w.color_code }
  let buf :=
    (List.range BUFFER_WIDTH).foldl (fun b col => bufWrite b row col blank) w.buffer
  ({ w with buffer := buf },
   (List.range BUFFER_WIDTH).map (fun col => (row, col)))

/-- `Writer::new_line`: for every row from 1 upward copies each cell one row
up (`chars[row - 1][col] = chars[row][col]` read then write), clears the last
row, and resets the column to 0.  The second component lists every (row,
column) buffer access of the loops (the read and the write of each copied
cell, then the accesses of `clear_row`). -/
def new_line (w : Writer) : Writer × List (Nat × Nat) :=
  let copied : Buffer :=
    (List.range' 1 (BUFFER_HEIGHT - 1)).foldl
      (fun b row =>
        (List.range BUFFER_WIDTH).foldl
          (fun b2 col => bufWrite b2 (row - 1) col (b2 row col)) b)
      w.buffer
  let p := clear_row { w with buffer := copied } (BUFFER_HEIGHT - 1)
  ({ p.1 with column_position := 0 },
   ((List.range' 1 (BUFFER_HEIGHT - 1)).flatMap (fun row =>
      (List.range BUFFER_WIDTH).flatMap (fun col => [(row, col), (row - 1, col)])))
     ++ p.2)

/-- `Writer::write_byte`: newline scrolls; otherwise, after scrolling first
when the column has reached `BUFFER_WIDTH`, stores the byte with the current
color at the current column of the last row and advances the column.  The
second component lists the buffer accesses performed. -/
def write_byte (w : Writer) (byte : Nat) : Writer × List (Nat × Nat) :=
  if byte = 0x0a then new_line w
  else
    let p := if BUFFER_WIDTH ≤ w.column_position then new_line w else (w, [])
    let row := BUFFER_HEIGHT - 1
    let col := p.1.column_position
    let c : ScreenChar := { ascii_character := byte, color_code := p.1.color_code }
    let buf := bufWrite p.1.buffer row col c
    ({ p.1 with buffer := buf, column_position := col + 1 },
     p.2 ++ [(row, col)])

/-- The loop body of `Writer::write_string`: a printable ASCII byte
(`0x20..=0x7e`) or newline is written as it is; every other byte is replaced
by the placeholder `0x3f` before being written.  The access log is
accumulated. -/
def writeStep (p : Writer × List (Nat × Nat)) (byte : Nat) :
    Writer × List (Nat × Nat) :=
  let q :=
    if (0x20 ≤ byte && byte ≤ 0x7e) || byte == 0x0a then write_byte p.1 byte
    else write_byte p.1 0x3f
  (q.1, p.2 ++ q.2)

/-- `Writer::write_string`: applies `writeStep` to every byte of the string
in order. -/
def write_string (w : Writer) (s : List Nat) : Writer × List (Nat × Nat) :=
  s.foldl writeStep (w, [])

/-- The color code of the global `WRITER`: foreground yellow (14) on
background black (0). -/
def writerColorCode : Nat := 14

/-- A concrete writer at column 0 with a blank buffer, used to instantiate
the universally quantified theorems. -/
def demoWriter : Writer :=
  { column_position := 0, color_code := writerColorCode,
    buffer := fun _ _ => { ascii_character := 0x20, color_code := writerColorCode } }

/-- A concrete writer whose column has reached `BUFFER_WIDTH` (the state
after 80 printable bytes were written on the current line). -/
def demoWriterFull : Writer :=
  { column_position := 80, color_code := writerColorCode,
    buffer := fun _ _ => { ascii_character := 0x41, color_code := writerColorCode } }

end VgaBuffer

namespace KernelVgaBuffer

/-- `_print` of dev/kernel/korat_os: performs the lock, write and unlock
inside `interrupts::without_interrupts`, which clears the interrupt flag
before the closure and restores it afterwards. -/
def print_path : List SyncAction :=
  [SyncAction.disableInts, SyncAction.lockWriter, SyncAction.writeOutput,
   SyncAction.unlockWriter, SyncAction.restoreInts]

end KernelVgaBuffer

end KoratOs

namespace KoratOs

namespace Memory

theorem mem_stepBy4096 {s e a : Nat} :
    a ∈ stepBy4096 s e ↔ ∃ k, a = s + 4096 * k ∧ s + 4096 * k < e := by
  simp only [stepBy4096, List.mem_map, List.mem_range]
  constructor
  · rintro ⟨k, hk, rfl⟩
    exact ⟨k, rfl, by omega⟩
  · rintro ⟨k, rfl, hk⟩
    exact ⟨k, by omega, rfl⟩

theorem pairwise_stepBy4096 (s e : Nat) : (stepBy4096 s e).Pairwise (· < ·) := by
  unfold stepBy4096
  refine List.Pairwise.map _ ?_ (List.pairwise_lt_range _)
  intro a b h
  omega

theorem stepBy4096_map_align {s : Nat} (e : Nat) (hs : s % 4096 = 0) :
    (stepBy4096 s e).map containing_address = stepBy4096 s e := by
  unfold stepBy4096 containing_address
  rw [List.map_map]
  apply List.map_congr_left
  intro k _
  simp only [Function.comp_apply]
  omega

theorem usable_frames_eq_of_aligned (m : List MemoryRegion)
    (hA : ∀ r ∈ m, r.start_addr % 4096 = 0) :
    usable_frames m
      = (m.filter (fun r => r.region_type == RegionType.Usable)).flatMap
          (fun r => stepBy4096 r.start_addr r.end_addr) := by
  unfold usable_frames
  simp only [List.flatMap_map, List.map_flatMap]
  apply List.flatMap_congr
  intro r hr
  exact stepBy4096_map_align r.end_addr (hA r (List.mem_of_mem_filter hr))

/-- C1.  For every boot memory map (regions 4096-aligned as the bootloader's
frame-number representation guarantees, and ordered as the boot handoff
supplies them), the usable-frame sequence scanned by `allocate_frame` is
strictly increasing (hence repetition-free), 4096-aligned, and inside
`Usable` regions; the `n`-th call of a fresh run returns the `n`-th element
of that sequence, and every call past its end returns `none`. -/
theorem claim1_frame_allocator (m : List MemoryRegion)
    (hA : ∀ r ∈ m, r.start_addr % 4096 = 0)
    (hS : m.Pairwise (fun r₁ r₂ => r₁.end_addr ≤ r₂.start_addr)) :
    (usable_frames m).Pairwise (· < ·)
    ∧ (∀ a ∈ usable_frames m, a % 4096 = 0)
    ∧ (∀ a ∈ usable_frames m, ∃ r ∈ m, r.region_type = RegionType.Usable ∧
         r.start_addr ≤ a ∧ a < r.end_addr)
    ∧ (∀ n, allocRun (BootInfoFrameAllocator.init m) n
         = (List.range n).map (fun k => (usable_frames m)[k]?))
    ∧ (∀ k, (usable_frames m).length ≤ k → (usable_frames m)[k]? = none) := by
  have hrun : ∀ (n i : Nat),
      allocRun { memory_map := m, next := i } n
        = (List.range n).map (fun k => (usable_frames m)[i + k]?) := by
    intro n
    induction n with
    | zero => intro i; simp [allocRun]
    | succ n ih =>
      intro i
      rw [List.range_succ_eq_map]
      simp only [allocRun, BootInfoFrameAllocator.allocate_frame, List.map_cons,
        List.map_map]
      refine congrArg₂ List.cons (by simp) ?_
      rw [ih (i + 1)]
      apply List.map_congr_left
      intro k _
      simp only [Function.comp_apply]
      congr 1
      omega
  refine ⟨?_, ?_, ?_, ?_, ?_⟩
  · rw [usable_frames_eq_of_aligned m hA, List.flatMap_def, List.pairwise_flatten]
    constructor
    · intro l hl
      obtain ⟨r, _, rfl⟩ := List.mem_map.mp hl
      exact pairwise_stepBy4096 _ _
    · refine List.Pairwise.map _ ?_ (hS.filter _)
      intro r₁ r₂ hle x hx y hy
      obtain ⟨k₁, rfl, hk₁⟩ := mem_stepBy4096.mp hx
      obtain ⟨k₂, rfl, hk₂⟩ := mem_stepBy4096.mp hy
      omega
  · intro a ha
    unfold usable_frames at ha
    obtain ⟨x, _, rfl⟩ := List.mem_map.mp ha
    unfold containing_address
    omega
  · intro a ha
    rw [usable_frames_eq_of_aligned m hA] at ha
    obtain ⟨r, hr, hx⟩ := List.mem_flatMap.mp ha
    obtain ⟨k, rfl, hk⟩ := mem_stepBy4096.mp hx
    refine ⟨r, List.mem_of_mem_filter hr, ?_, by omega, by omega⟩
    have := (List.mem_filter.mp hr).2
    exact beq_iff_eq.mp this
  · intro n
    have h := hrun n 0
    simpa [BootInfoFrameAllocator.init] using h
  · intro k hk
    exact List.getElem?_eq_none hk

theorem map_to_conflict {A : Type} (page : Page) (frame : Nat)
    (flags : PageTableFlags) (allocate : A → Option Nat × A) (a : A)
    (st : PageTableState)
    (ht : hasIntermediateTables st page = true)
    (hm : (lookupMapping st page).isSome = true) :
    map_to page frame flags allocate a st
      = Except.error MapToError.PageAlreadyMapped := by
  simp only [hasIntermediateTables, Bool.and_eq_true] at ht
  obtain ⟨⟨h3, h2⟩, h1⟩ := ht
  simp only [lookupMapping] at hm
  have h3' : page.p4_index ∈ st.p3_tables := by simpa using h3
  have h2' : (page.p4_index, page.p3_index) ∈ st.p2_tables := by simpa using h2
  have h1' : (page.p4_index, page.p3_index, page.p2_index) ∈ st.p1_tables := by
    simpa using h1
  simp [map_to, ensureTable, h3', h2', h1', hm]

theorem map_to_alloc_failed {A : Type} (page : Page) (frame : Nat)
    (flags : PageTableFlags) (allocate : A → Option Nat × A) (a : A)
    (st : PageTableState)
    (ht : hasIntermediateTables st page = false)
    (hAlloc : ∀ x : A, (allocate x).1 = none) :
    map_to page frame flags allocate a st
      = Except.error MapToError.FrameAllocationFailed := by
  have ha := hAlloc a
  rcases hr : allocate a with ⟨o, a'⟩
  rw [hr] at ha
  simp only at ha
  subst ha
  cases h3 : st.p3_tables.contains page.p4_index with
  | false =>
    have h3' : page.p4_index ∉ st.p3_tables := by simpa using h3
    simp [map_to, ensureTable, h3', hr]
  | true =>
    have h3' : page.p4_index ∈ st.p3_tables := by simpa using h3
    cases h2 : st.p2_tables.contains (page.p4_index, page.p3_index) with
    | false =>
      have h2' : (page.p4_index, page.p3_index) ∉ st.p2_tables := by simpa using h2
      simp [map_to, ensureTable, h3', h2', hr]
    | true =>
      have h2' : (page.p4_index, page.p3_index) ∈ st.p2_tables := by simpa using h2
      cases h1 : st.p1_tables.contains
          (page.p4_index, page.p3_index, page.p2_index) with
      | false =>
        have h1' : (page.p4_index, page.p3_index, page.p2_index) ∉ st.p1_tables := by
          simpa using h1
        simp [map_to, ensureTable, h3', h2', h1', hr]
      | true =>
        exfalso
        simp [hasIntermediateTables] at ht
        exact ht h3' h2' (by simpa using h1)

theorem map_to_ok_flush {A : Type} {page : Page} {frame : Nat}
    {flags : PageTableFlags} {allocate : A → Option Nat × A} {a : A}
    {st : PageTableState} {fl : MapperFlush} {st' : PageTableState} {a' : A}
    (h : map_to page frame flags allocate a st = Except.ok (fl, st', a')) :
    fl = { page := page } := by
  unfold map_to at h
  iterate 10 all_goals try split at h
  all_goals simp_all

/-- C2.  The page-mapping operation returns its failures as explicit typed
result values: a mapping-conflict error when the target page is already
mapped (with its intermediate tables in place), and an allocation-exhausted
error when an intermediate page-table frame cannot be obtained from the
supplied allocator; when it succeeds, `create_example_mapping` flushes the
returned handle, invalidating the translation-cache entry of exactly the
mapped page. -/
theorem claim2_map_error_paths :
    (∀ (A : Type) (page : Page) (frame : Nat) (flags : PageTableFlags)
       (allocate : A → Option Nat × A) (a : A) (st : PageTableState),
       hasIntermediateTables st page = true →
       (lookupMapping st page).isSome = true →
       map_to page frame flags allocate a st
         = Except.error MapToError.PageAlreadyMapped)
    ∧ (∀ (A : Type) (page : Page) (frame : Nat) (flags : PageTableFlags)
         (allocate : A → Option Nat × A) (a : A) (st : PageTableState),
         hasIntermediateTables st page = false →
         (∀ x : A, (allocate x).1 = none) →
         map_to page frame flags allocate a st
           = Except.error MapToError.FrameAllocationFailed)
    ∧ (∀ (A : Type) (page : Page) (allocate : A → Option Nat × A) (a : A)
         (st : PageTableState) (fl : MapperFlush) (st' : PageTableState)
         (a' : A),
         map_to page (containing_address 0xb8000)
             { present := true, writable := true } allocate a st
           = Except.ok (fl, st', a') →
         fl.page = page ∧
           create_example_mapping page allocate a st
             = MapOutcome.done page st') := by
  refine ⟨?_, ?_, ?_⟩
  · intro A page frame flags allocate a st ht hm
    exact map_to_conflict page frame flags allocate a st ht hm
  · intro A page frame flags allocate a st ht hAlloc
    exact map_to_alloc_failed page frame flags allocate a st ht hAlloc
  · intro A page allocate a st fl st' a' h
    have hfl : fl = { page := page } := map_to_ok_flush h
    subst hfl
    refine ⟨rfl, ?_⟩
    simp [create_example_mapping, h, MapperFlush.flush]

theorem claim2_map_error_paths_witness :
    hasIntermediateTables demoMappedState demoPage = true
    ∧ (lookupMapping demoMappedState demoPage).isSome = true
    ∧ hasIntermediateTables emptyState demoPage = false
    ∧ (∀ x : Unit, (EmptyFrameAllocator.allocate_frame x).1 = none)
    ∧ map_to demoPage 0 { present := true, writable := true }
        EmptyFrameAllocator.allocate_frame () demoMappedState
        = Except.error MapToError.PageAlreadyMapped
    ∧ map_to demoPage 0 { present := true, writable := true }
        EmptyFrameAllocator.allocate_frame () emptyState
        = Except.error MapToError.FrameAllocationFailed
    ∧ create_example_mapping demoPage listAllocate [1, 2, 3] emptyState
        = MapOutcome.done demoPage demoMappedState :=
  ⟨by decide, by decide, by decide, fun _ => rfl,
   claim2_map_error_paths.1 Unit demoPage 0 { present := true, writable := true }
     EmptyFrameAllocator.allocate_frame () demoMappedState (by decide) (by decide),
   claim2_map_error_paths.2.1 Unit demoPage 0 { present := true, writable := true }
     EmptyFrameAllocator.allocate_frame () emptyState (by decide) (fun _ => rfl),
   (claim2_map_error_paths.2.2 (List Nat) demoPage listAllocate [1, 2, 3]
     emptyState { page := demoPage } demoMappedState [] (by rfl)).2⟩

theorem claim1_frame_allocator_witness :
    (∀ r ∈ demoMap, r.start_addr % 4096 = 0)
    ∧ demoMap.Pairwise (fun r₁ r₂ => r₁.end_addr ≤ r₂.start_addr)
    ∧ (usable_frames demoMap).Pairwise (· < ·)
    ∧ (∀ a ∈ usable_frames demoMap, a % 4096 = 0) :=
  ⟨by decide, by decide,
   (claim1_frame_allocator demoMap (by decide) (by decide)).1,
   (claim1_frame_allocator demoMap (by decide) (by decide)).2.1⟩

end Memory

namespace KernelInterrupts

/-- C3.  The dev/kernel crate installs `page_fault_handler` at the page-fault
vector (14) of its dispatch table, and on every page fault the handler logs
the faulting virtual address read from the CPU fault-address register `CR2`
and the fault-reason bitmask, then halts the processor and never returns to
the interrupted context. -/
theorem claim3_page_fault_handler :
    IDT 14 = some { handler := HandlerId.pageFault, stack_index := none }
    ∧ ∀ (cpu : CpuState) (sf ec : Nat),
        LogEvent.accessedAddress cpu.cr2 ∈ (page_fault_handler cpu sf ec).1
        ∧ LogEvent.errorCode ec ∈ (page_fault_handler cpu sf ec).1
        ∧ (page_fault_handler cpu sf ec).2 = HandlerExit.halted
        ∧ (page_fault_handler cpu sf ec).2 ≠ HandlerExit.returned := by
  refine ⟨rfl, ?_⟩
  intro cpu sf ec
  refine ⟨?_, ?_, rfl, ?_⟩ <;> simp [page_fault_handler, hlt_loop]

/-- C5.  Each hardware-IRQ handler of the dev/kernel crate sends exactly one
end-of-interrupt acknowledgment, for its own vector, as its final action
before returning — for the keyboard handler on every path of the decoder,
including the paths where no complete key event is produced. -/
theorem claim5_irq_handlers_single_eoi :
    eoiCount timer_interrupt_handler = 1
    ∧ timer_interrupt_handler.getLast?
        = some (IoAction.eoi InterruptIndex.Timer.as_u8)
    ∧ ∀ (S : Type) (dec : KeyboardDecoder S) (st : S) (scancode : Nat),
        eoiCount (keyboard_interrupt_handler dec st scancode).1 = 1
        ∧ (keyboard_interrupt_handler dec st scancode).1.getLast?
            = some (IoAction.eoi InterruptIndex.Keyboard.as_u8) := by
  refine ⟨rfl, rfl, ?_⟩
  intro S dec st scancode
  rcases h : dec.add_byte st scancode with ⟨r, st1⟩
  rcases r with u | o
  · constructor <;> simp [keyboard_interrupt_handler, h, eoiCount]
  · rcases o with _ | ev
    · constructor <;> simp [keyboard_interrupt_handler, h, eoiCount]
    · rcases h2 : dec.process_keyevent st1 ev with ⟨ko, st2⟩
      rcases ko with _ | key
      · constructor <;> simp [keyboard_interrupt_handler, h, h2, eoiCount]
      · constructor <;> simp [keyboard_interrupt_handler, h, h2, eoiCount]

end KernelInterrupts

/-- C4.  The double-fault handler is installed at vector 8 with
interrupt-stack-table index 0; that index of the task-state structure holds
the end of the fixed-size (`4096 * 5` bytes), statically reserved stack
region; and on every double fault the handler logs the error code and the
saved execution frame and panics — its return type is the never type, it
never returns. -/
theorem claim4_double_fault_handler :
    Interrupts.IDT 8
      = some { handler := HandlerId.doubleFault,
               stack_index := some Gdt.DOUBLE_FAULT_IST_INDEX }
    ∧ Gdt.DOUBLE_FAULT_IST_INDEX = 0
    ∧ Gdt.STACK_SIZE = 4096 * 5
    ∧ (∀ stack_start,
        (Gdt.TSS stack_start).interrupt_stack_table.length = 7
        ∧ (Gdt.TSS stack_start).interrupt_stack_table.getD
            Gdt.DOUBLE_FAULT_IST_INDEX 0 = stack_start + Gdt.STACK_SIZE)
    ∧ ∀ sf ec,
        (Interrupts.double_fault_handler sf ec).2 = HandlerExit.panicked
        ∧ (Interrupts.double_fault_handler sf ec).2 ≠ HandlerExit.returned
        ∧ LogEvent.errorCode ec ∈ (Interrupts.double_fault_handler sf ec).1
        ∧ LogEvent.stackFrame sf ∈ (Interrupts.double_fault_handler sf ec).1 := by
  refine ⟨rfl, rfl, rfl, fun s => ⟨rfl, rfl⟩, ?_⟩
  intro sf ec
  refine ⟨rfl, ?_, ?_, ?_⟩ <;> simp [Interrupts.double_fault_handler]

/-- C6 counterexample.  The claim orders the init sequence as descriptor
bundle, dispatch table, interrupt enable, controller-pair setup; but in
`init` the interrupt-enable step does not precede the controller-pair setup
step — the code initializes the controller pair first. -/
theorem claim6_counterexample :
    ¬ (init.indexOf InitStep.enableInts < init.indexOf InitStep.initPics) := by
  decide

/-- C6 (amended).  `init` performs each of its four steps exactly once, in
the order: load the descriptor bundle, load the dispatch table, initialize
the controller pair, and then enable hardware interrupts. -/
theorem claim6_init_order :
    init.indexOf InitStep.loadGdt < init.indexOf InitStep.loadIdt
    ∧ init.indexOf InitStep.loadIdt < init.indexOf InitStep.initPics
    ∧ init.indexOf InitStep.initPics < init.indexOf InitStep.enableInts
    ∧ init.count InitStep.loadGdt = 1
    ∧ init.count InitStep.loadIdt = 1
    ∧ init.count InitStep.initPics = 1
    ∧ init.count InitStep.enableInts = 1 := by
  decide

/-- C7 counterexample.  In the dev/korat_os crate the global print path
takes the writer lock without touching the interrupt flag, so starting from
a context with interrupts enabled there is a point where the lock is held
while interrupts are still enabled — the claimed property fails on this
print path. -/
theorem claim7_counterexample :
    lockHeldIntsEnabled true false VgaBuffer.print_path = true := by
  decide

/-- C7 (amended).  In the dev/kernel/korat_os crate the global print path
runs the lock acquisition, the write and the release inside
`without_interrupts`, so at no point of the path is the writer lock held
while interrupts are enabled; the dev/korat_os variant of the path lacks the
interrupt masking. -/
theorem claim7_kernel_print_masks_ints :
    lockHeldIntsEnabled true false KernelVgaBuffer.print_path = false
    ∧ SyncAction.lockWriter ∈ KernelVgaBuffer.print_path
    ∧ SyncAction.writeOutput ∈ KernelVgaBuffer.print_path
    ∧ SyncAction.unlockWriter ∈ KernelVgaBuffer.print_path := by
  decide

namespace VgaBuffer

theorem foldl_bufWrite_const (buf : Buffer) (row : Nat) (c : ScreenChar) :
    ∀ n, (List.range n).foldl (fun b col => bufWrite b row col c) buf
      = fun r k => if r = row ∧ k < n then c else buf r k := by
  intro n
  induction n with
  | zero =>
    funext r k
    simp
  | succ n ih =>
    rw [List.range_succ, List.foldl_append, ih]
    funext r k
    simp only [List.foldl_cons, List.foldl_nil, bufWrite]
    by_cases hr : r = row
    · subst hr
      rcases Nat.lt_trichotomy k n with h | h | h
      · simp [Nat.ne_of_lt h, h, Nat.lt_succ_of_lt h]
      · subst h
        simp
      · have h1 : ¬ k = n := by omega
        have h2 : ¬ k < n := by omega
        have h3 : ¬ k < n + 1 := by omega
        simp [h1, h2, h3]
    · simp [hr]

theorem foldl_copy_row (buf : Buffer) (row : Nat) (hrow : 1 ≤ row) :
    ∀ n, (List.range n).foldl
        (fun b2 col => bufWrite b2 (row - 1) col (b2 row col)) buf
      = fun r k => if r = row - 1 ∧ k < n then buf row k else buf r k := by
  intro n
  induction n with
  | zero =>
    funext r k
    simp
  | succ n ih =>
    rw [List.range_succ, List.foldl_append, ih]
    funext r k
    simp only [List.foldl_cons, List.foldl_nil, bufWrite]
    have hne : ¬ row = row - 1 := by omega
    by_cases hr : r = row - 1
    · subst hr
      rcases Nat.lt_trichotomy k n with h | h | h
      · simp [Nat.ne_of_lt h, h, Nat.lt_succ_of_lt h, hne]
      · subst h
        simp [hne]
      · have h1 : ¬ k = n := by omega
        have h2 : ¬ k < n := by omega
        have h3 : ¬ k < n + 1 := by omega
        simp [h1, h2, h3]
    · simp [hr]

theorem foldl_copy_rows (buf : Buffer) :
    ∀ m, (List.range' 1 m).foldl
        (fun b row => (List.range BUFFER_WIDTH).foldl
          (fun b2 col => bufWrite b2 (row - 1) col (b2 row col)) b) buf
      = fun r k => if r < m ∧ k < BUFFER_WIDTH then buf (r + 1) k else buf r k := by
  intro m
  induction m with
  | zero =>
    funext r k
    simp
  | succ m ih =>
    rw [List.range'_concat, List.foldl_append, ih]
    funext r k
    simp only [List.foldl_cons, List.foldl_nil, one_mul]
    rw [foldl_copy_row _ (1 + m) (by omega)]
    have e1 : 1 + m - 1 = m := by omega
    simp only [e1]
    by_cases hk : k < BUFFER_WIDTH
    · by_cases hr : r = m
      · rw [if_pos ⟨hr, hk⟩,
          if_neg (by omega : ¬ (1 + m < m ∧ k < BUFFER_WIDTH)),
          if_pos ⟨by omega, hk⟩, hr,
          (by omega : 1 + m = m + 1)]
      · rw [if_neg (fun hcc => hr hcc.1)]
        by_cases hrm : r < m
        · rw [if_pos ⟨hrm, hk⟩, if_pos ⟨by omega, hk⟩]
        · rw [if_neg (fun hcc => hrm hcc.1),
            if_neg (by omega : ¬ (r < m + 1 ∧ k < BUFFER_WIDTH))]
    · rw [if_neg (fun hcc => hk hcc.2), if_neg (fun hcc => hk hcc.2),
        if_neg (fun hcc => hk hcc.2)]

theorem new_line_spec (w : Writer) :
    (new_line w).1.column_position = 0
    ∧ (new_line w).1.color_code = w.color_code
    ∧ (new_line w).1.buffer = fun r k =>
        if r = BUFFER_HEIGHT - 1 ∧ k < BUFFER_WIDTH then
          { ascii_character := 0x20, color_code := w.color_code }
        else if r < BUFFER_HEIGHT - 1 ∧ k < BUFFER_WIDTH then w.buffer (r + 1) k
        else w.buffer r k := by
  refine ⟨rfl, rfl, ?_⟩
  show (clear_row { w with buffer := _ } (BUFFER_HEIGHT - 1)).1.buffer = _
  simp only [clear_row]
  rw [foldl_bufWrite_const, foldl_copy_rows]

theorem write_byte_newline (w : Writer) : write_byte w 0x0a = new_line w := by
  simp [write_byte]

theorem write_byte_printable_lt (w : Writer) (b : Nat) (hb : b ≠ 0x0a)
    (hcol : w.column_position < BUFFER_WIDTH) :
    write_byte w b
      = ({ w with
            buffer := bufWrite w.buffer (BUFFER_HEIGHT - 1) w.column_position
              { ascii_character := b, color_code := w.color_code },
            column_position := w.column_position + 1 },
         [(BUFFER_HEIGHT - 1, w.column_position)]) := by
  simp only [write_byte, if_neg hb,
    if_neg (by omega : ¬ BUFFER_WIDTH ≤ w.column_position), List.nil_append]

theorem write_byte_overflow (w : Writer) (b : Nat) (hb : b ≠ 0x0a)
    (hcol : BUFFER_WIDTH ≤ w.column_position) :
    write_byte w b
      = ({ (new_line w).1 with
            buffer := bufWrite (new_line w).1.buffer (BUFFER_HEIGHT - 1) 0
              { ascii_character := b, color_code := (new_line w).1.color_code },
            column_position := 1 },
         (new_line w).2 ++ [(BUFFER_HEIGHT - 1, 0)]) := by
  simp only [write_byte, if_neg hb, if_pos hcol, (new_line_spec w).1,
    Nat.zero_add]

theorem new_line_buffer_cell (w : Writer) (r k : Nat) :
    (new_line w).1.buffer r k
      = if r = BUFFER_HEIGHT - 1 ∧ k < BUFFER_WIDTH then
          { ascii_character := 0x20, color_code := w.color_code }
        else if r < BUFFER_HEIGHT - 1 ∧ k < BUFFER_WIDTH then w.buffer (r + 1) k
        else w.buffer r k := by
  rw [(new_line_spec w).2.2]

/-- C8 counterexample.  On a writer whose column has reached the 80-column
width (reachable by writing 80 printable bytes), writing the printable byte
`0x41` does not leave the column at zero — it scrolls, stores the byte at
column 0 of the last row, and leaves the column at one, so the claimed
"column resets to zero / last row cleared to blanks" postcondition fails. -/
theorem claim8_counterexample :
    ¬ ((write_byte demoWriterFull 0x41).1.column_position = 0
       ∧ (write_byte demoWriterFull 0x41).1.buffer (BUFFER_HEIGHT - 1) 0
           = { ascii_character := 0x20, color_code := writerColorCode }) := by
  decide

/-- C8 (amended).  A printable byte written when the column is below the
80-column width is stored at the current column of the last row and the
column advances by exactly one, with no other cell changed; a newline
scrolls — every row's contents move up one row and the last row is cleared
to blanks — and resets the column to zero; a printable byte written when the
column has reached the width first scrolls the same way with the column
reset to zero, then stores the byte at column 0 of the last row, leaving the
column at one. -/
theorem claim8_write_byte (w : Writer) (b : Nat) :
    (0x20 ≤ b → b ≤ 0x7e → w.column_position < BUFFER_WIDTH →
       (write_byte w b).1.column_position = w.column_position + 1
       ∧ (write_byte w b).1.buffer (BUFFER_HEIGHT - 1) w.column_position
           = { ascii_character := b, color_code := w.color_code }
       ∧ ∀ r k, ¬ (r = BUFFER_HEIGHT - 1 ∧ k = w.column_position) →
           (write_byte w b).1.buffer r k = w.buffer r k)
    ∧ ((write_byte w 0x0a).1.column_position = 0
       ∧ (∀ k, k < BUFFER_WIDTH →
           (write_byte w 0x0a).1.buffer (BUFFER_HEIGHT - 1) k
             = { ascii_character := 0x20, color_code := w.color_code })
       ∧ (∀ r k, r < BUFFER_HEIGHT - 1 → k < BUFFER_WIDTH →
           (write_byte w 0x0a).1.buffer r k = w.buffer (r + 1) k))
    ∧ (0x20 ≤ b → b ≤ 0x7e → w.column_position = BUFFER_WIDTH →
       (write_byte w b).1.column_position = 1
       ∧ (write_byte w b).1.buffer (BUFFER_HEIGHT - 1) 0
           = { ascii_character := b, color_code := w.color_code }
       ∧ (∀ k, 0 < k → k < BUFFER_WIDTH →
           (write_byte w b).1.buffer (BUFFER_HEIGHT - 1) k
             = { ascii_character := 0x20, color_code := w.color_code })
       ∧ (∀ r k, r < BUFFER_HEIGHT - 1 → k < BUFFER_WIDTH →
           (write_byte w b).1.buffer r k = w.buffer (r + 1) k)) := by
  refine ⟨?_, ?_, ?_⟩
  · intro h1 h2 h3
    have hb : b ≠ 0x0a := by omega
    rw [write_byte_printable_lt w b hb h3]
    refine ⟨rfl, ?_, ?_⟩
    · simp [bufWrite]
    · intro r k hne
      simp only [bufWrite]
      rw [if_neg hne]
  · rw [write_byte_newline w]
    refine ⟨(new_line_spec w).1, ?_, ?_⟩
    · intro k hk
      rw [new_line_buffer_cell, if_pos ⟨rfl, hk⟩]
    · intro r k hr hk
      rw [new_line_buffer_cell, if_neg (fun hc => absurd hc.1 (by omega)),
        if_pos ⟨hr, hk⟩]
  · intro h1 h2 h3
    have hb : b ≠ 0x0a := by omega
    have hge : BUFFER_WIDTH ≤ w.column_position := by omega
    rw [write_byte_overflow w b hb hge]
    refine ⟨rfl, ?_, ?_, ?_⟩
    · simp [bufWrite, (new_line_spec w).2.1]
    · intro k hk0 hkW
      simp only [bufWrite]
      rw [if_neg (fun hc => absurd hc.2 (by omega)), new_line_buffer_cell,
        if_pos ⟨rfl, hkW⟩]
    · intro r k hr hkW
      simp only [bufWrite]
      rw [if_neg (fun hc => absurd hc.1 (by omega)), new_line_buffer_cell,
        if_neg (fun hc => absurd hc.1 (by omega)), if_pos ⟨hr, hkW⟩]

theorem claim8_write_byte_witness :
    (0x20 ≤ 0x41 ∧ 0x41 ≤ 0x7e ∧ demoWriter.column_position < BUFFER_WIDTH
      ∧ demoWriterFull.column_position = BUFFER_WIDTH)
    ∧ ((write_byte demoWriter 0x41).1.column_position
        = demoWriter.column_position + 1
      ∧ (write_byte demoWriter 0x41).1.buffer (BUFFER_HEIGHT - 1)
          demoWriter.column_position
        = { ascii_character := 0x41, color_code := demoWriter.color_code })
    ∧ (write_byte demoWriterFull 0x41).1.column_position = 1 :=
  ⟨by decide,
   ⟨((claim8_write_byte demoWriter 0x41).1 (by decide) (by decide) (by decide)).1,
    ((claim8_write_byte demoWriter 0x41).1 (by decide) (by decide) (by decide)).2.1⟩,
   ((claim8_write_byte demoWriterFull 0x41).2.2 (by decide) (by decide)
     (by decide)).1⟩

/-- C9.  Every byte outside the printable ASCII range and distinct from
newline is dispatched by `write_string` to `write_byte 0x3f`: the grid cell
receives the fixed placeholder `0x3f` (a printable code, hence never equal to
the raw out-of-range input byte). -/
theorem claim9_placeholder (w : Writer) (b : Nat)
    (hb : b < 0x20 ∨ 0x7e < b) (hnl : b ≠ 0x0a)
    (hcol : w.column_position ≤ BUFFER_WIDTH) :
    write_string w [b] = write_byte w 0x3f
    ∧ (w.column_position < BUFFER_WIDTH →
        (write_string w [b]).1.buffer (BUFFER_HEIGHT - 1) w.column_position
          = { ascii_character := 0x3f, color_code := w.color_code })
    ∧ (w.column_position = BUFFER_WIDTH →
        (write_string w [b]).1.buffer (BUFFER_HEIGHT - 1) 0
          = { ascii_character := 0x3f, color_code := w.color_code })
    ∧ 0x3f ≠ b := by
  have hcond : ((decide (0x20 ≤ b) && decide (b ≤ 0x7e)) || (b == 0x0a)) = false := by
    simp only [Bool.or_eq_false_iff, Bool.and_eq_false_iff,
      decide_eq_false_iff_not, beq_eq_false_iff_ne]
    refine ⟨?_, hnl⟩
    rcases hb with h | h
    · exact Or.inl (by omega)
    · exact Or.inr (by omega)
  have hmain : write_string w [b] = write_byte w 0x3f := by
    simp only [write_string, List.foldl_cons, List.foldl_nil, writeStep,
      hcond, Bool.false_eq_true, if_false, List.nil_append]
  refine ⟨hmain, ?_, ?_, by omega⟩
  · intro hlt
    rw [hmain, write_byte_printable_lt w 0x3f (by decide) hlt]
    simp [bufWrite]
  · intro heq
    rw [hmain, write_byte_overflow w 0x3f (by decide) (by omega)]
    simp [bufWrite, (new_line_spec w).2.1]

theorem claim9_placeholder_witness :
    ((0xff : Nat) < 0x20 ∨ (0x7e : Nat) < 0xff) ∧ (0xff : Nat) ≠ 0x0a
    ∧ demoWriter.column_position ≤ BUFFER_WIDTH
    ∧ write_string demoWriter [0xff] = write_byte demoWriter 0x3f
    ∧ (0x3f : Nat) ≠ 0xff :=
  ⟨by decide, by decide, by decide,
   (claim9_placeholder demoWriter 0xff (by decide) (by decide) (by decide)).1,
   (claim9_placeholder demoWriter 0xff (by decide) (by decide) (by decide)).2.2.2⟩

theorem new_line_accesses_bound (w : Writer) :
    ∀ a ∈ (new_line w).2, a.1 < BUFFER_HEIGHT ∧ a.2 < BUFFER_WIDTH := by
  intro a ha
  simp only [new_line, clear_row, List.mem_append, List.mem_flatMap,
    List.mem_map, List.mem_range, List.mem_range'_1, List.mem_cons,
    List.mem_singleton, List.not_mem_nil, or_false] at ha
  rcases ha with ⟨row, hrow, col, hcol, h | h⟩ | ⟨col, hcol, h⟩
  · subst h
    refine ⟨?_, ?_⟩
    · show row < BUFFER_HEIGHT
      simp only [BUFFER_HEIGHT] at *
      omega
    · exact hcol
  · subst h
    refine ⟨?_, ?_⟩
    · show row - 1 < BUFFER_HEIGHT
      simp only [BUFFER_HEIGHT] at *
      omega
    · exact hcol
  · subst h
    refine ⟨?_, ?_⟩
    · show BUFFER_HEIGHT - 1 < BUFFER_HEIGHT
      decide
    · exact hcol

theorem write_byte_col_le (w : Writer) (b : Nat)
    (hcol : w.column_position ≤ BUFFER_WIDTH) :
    (write_byte w b).1.column_position ≤ BUFFER_WIDTH := by
  by_cases hb : b = 0x0a
  · subst hb
    rw [write_byte_newline w, (new_line_spec w).1]
    exact Nat.zero_le _
  · by_cases hge : BUFFER_WIDTH ≤ w.column_position
    · rw [write_byte_overflow w b hb hge]
      show 1 ≤ BUFFER_WIDTH
      decide
    · rw [write_byte_printable_lt w b hb (by omega)]
      show w.column_position + 1 ≤ BUFFER_WIDTH
      omega

theorem write_byte_accesses_bound (w : Writer) (b : Nat)
    (hcol : w.column_position ≤ BUFFER_WIDTH) :
    ∀ a ∈ (write_byte w b).2, a.1 < BUFFER_HEIGHT ∧ a.2 < BUFFER_WIDTH := by
  by_cases hb : b = 0x0a
  · subst hb
    rw [write_byte_newline w]
    exact new_line_accesses_bound w
  · by_cases hge : BUFFER_WIDTH ≤ w.column_position
    · rw [write_byte_overflow w b hb hge]
      intro a ha
      rcases List.mem_append.mp ha with h | h
      · exact new_line_accesses_bound w a h
      · rw [List.mem_singleton.mp h]
        exact ⟨by decide, by decide⟩
    · rw [write_byte_printable_lt w b hb (by omega)]
      intro a ha
      rw [List.mem_singleton.mp ha]
      refine ⟨?_, ?_⟩
      · show BUFFER_HEIGHT - 1 < BUFFER_HEIGHT
        decide
      · show w.column_position < BUFFER_WIDTH
        omega

theorem clear_row_accesses_bound (w : Writer) (row : Nat)
    (hrow : row < BUFFER_HEIGHT) :
    ∀ a ∈ (clear_row w row).2, a.1 < BUFFER_HEIGHT ∧ a.2 < BUFFER_WIDTH := by
  intro a ha
  simp only [clear_row, List.mem_map, List.mem_range] at ha
  obtain ⟨col, hc, rfl⟩ := ha
  exact ⟨hrow, hc⟩

theorem writeStep_cases (p : Writer × List (Nat × Nat)) (b : Nat) :
    ∃ c, writeStep p b = ((write_byte p.1 c).1, p.2 ++ (write_byte p.1 c).2) := by
  by_cases hc : (((0x20 ≤ b && b ≤ 0x7e) || b == 0x0a : Bool) = true)
  · exact ⟨b, by simp [writeStep, hc]⟩
  · exact ⟨0x3f, by simp [writeStep, hc]⟩

theorem writeStep_acc_eq (w : Writer) (acc : List (Nat × Nat)) (b : Nat) :
    writeStep (w, acc) b
      = ((writeStep (w, []) b).1, acc ++ (writeStep (w, []) b).2) := by
  simp only [writeStep, List.nil_append]

theorem writeStep_acc (s : List Nat) :
    ∀ (w : Writer) (acc : List (Nat × Nat)),
      s.foldl writeStep (w, acc)
        = ((s.foldl writeStep (w, [])).1, acc ++ (s.foldl writeStep (w, [])).2) := by
  induction s with
  | nil =>
    intro w acc
    simp
  | cons b rest ih =>
    intro w acc
    simp only [List.foldl_cons, writeStep_acc_eq w acc b]
    rcases hq : writeStep (w, []) b with ⟨w1, l1⟩
    simp only [hq]
    rw [ih w1 (acc ++ l1), ih w1 l1]
    simp [List.append_assoc]

theorem write_string_inv (s : List Nat) :
    ∀ w : Writer, w.column_position ≤ BUFFER_WIDTH →
      (write_string w s).1.column_position ≤ BUFFER_WIDTH
      ∧ ∀ a ∈ (write_string w s).2, a.1 < BUFFER_HEIGHT ∧ a.2 < BUFFER_WIDTH := by
  induction s with
  | nil =>
    intro w h
    refine ⟨h, ?_⟩
    intro a ha
    simp [write_string] at ha
  | cons b rest ih =>
    intro w h
    obtain ⟨c, hc⟩ := writeStep_cases (w, []) b
    have hcol1 : (write_byte w c).1.column_position ≤ BUFFER_WIDTH :=
      write_byte_col_le w c h
    have hacc1 := write_byte_accesses_bound w c h
    have hs : write_string w (b :: rest)
        = ((write_string (write_byte w c).1 rest).1,
           (write_byte w c).2 ++ (write_string (write_byte w c).1 rest).2) := by
      simp only [write_string, List.foldl_cons, hc, List.nil_append]
      rw [writeStep_acc rest (write_byte w c).1 (write_byte w c).2]
    obtain ⟨ih1, ih2⟩ := ih (write_byte w c).1 hcol1
    rw [hs]
    refine ⟨ih1, ?_⟩
    intro a ha
    rcases List.mem_append.mp ha with h1 | h1
    · exact hacc1 a h1
    · exact ih2 a h1

/-- C10.  Every writer operation keeps the column invariant
`column_position ≤ 80`, and every buffer access performed by `write_byte`,
`new_line`, `clear_row` (at the row the code calls it with) and
`write_string` — as recorded in the access logs of the embedding — lies
inside the 25-row by 80-column grid: a printable write at column 80 scrolls
first and writes at column 0, so no cell outside the grid is ever indexed. -/
theorem claim10_writer_bounds (w : Writer) (b : Nat) (s : List Nat) (row : Nat)
    (hcol : w.column_position ≤ BUFFER_WIDTH) (hrow : row < BUFFER_HEIGHT) :
    ((write_byte w b).1.column_position ≤ BUFFER_WIDTH
      ∧ ∀ a ∈ (write_byte w b).2, a.1 < BUFFER_HEIGHT ∧ a.2 < BUFFER_WIDTH)
    ∧ ((new_line w).1.column_position ≤ BUFFER_WIDTH
      ∧ ∀ a ∈ (new_line w).2, a.1 < BUFFER_HEIGHT ∧ a.2 < BUFFER_WIDTH)
    ∧ ((clear_row w row).1.column_position = w.column_position
      ∧ ∀ a ∈ (clear_row w row).2, a.1 < BUFFER_HEIGHT ∧ a.2 < BUFFER_WIDTH)
    ∧ ((write_string w s).1.column_position ≤ BUFFER_WIDTH
      ∧ ∀ a ∈ (write_string w s).2, a.1 < BUFFER_HEIGHT ∧ a.2 < BUFFER_WIDTH) := by
  refine ⟨⟨write_byte_col_le w b hcol, write_byte_accesses_bound w b hcol⟩,
    ⟨?_, new_line_accesses_bound w⟩,
    ⟨rfl, clear_row_accesses_bound w row hrow⟩,
    write_string_inv s w hcol⟩
  rw [(new_line_spec w).1]
  exact Nat.zero_le _

theorem claim10_writer_bounds_witness :
    demoWriter.column_position ≤ BUFFER_WIDTH
    ∧ 24 < BUFFER_HEIGHT
    ∧ ((write_byte demoWriter 0x41).1.column_position ≤ BUFFER_WIDTH
        ∧ ∀ a ∈ (write_byte demoWriter 0x41).2,
            a.1 < BUFFER_HEIGHT ∧ a.2 < BUFFER_WIDTH) :=
  ⟨by decide, by decide,
   (claim10_writer_bounds demoWriter 0x41 [0x48, 0xff, 0x0a] 24
     (by decide) (by decide)).1⟩

end VgaBuffer

end KoratOs
